import Mathlib

/-!
Verification of the dependency-resolution subsystem of the vendored
`ui_test-0.11.7` crate (`src/dependencies.rs`): the `cfgs` query, the
build-driver artifact collection, and the dependency-graph resolution in
`build_dependencies`.  External effects (subprocess spawning, output capture,
path canonicalization) are represented by an explicit `World` record; external
parsers (`cargo_metadata::Message`, the metadata JSON document) are represented
by the parse outcome of each output line, which is exactly what the source code
branches on.
-/

namespace UiTest

/-- A filesystem path, as its list of components (`Utf8PathBuf` / `PathBuf`). -/
abbrev FsPath := List String

/-- One platform configuration flag (`cargo_platform::Cfg`): a key with an
optional value. -/
structure Cfg where
  key : String
  value : Option String
deriving DecidableEq, Repr

/-- Modelled from the spec: a dependency's platform applicability predicate
(`cargo_platform::Platform`, whose code is not under `src/`): it is evaluated
against the resolved platform-flag set and the target platform identifier, and
can be keyed on a flag without a value, a flag with a value, or the target
identifier itself. -/
inductive Platform where
  | cfgName (key : String)
  | cfgPair (key : String) (value : String)
  | triple (t : String)
deriving DecidableEq, Repr

/-- Evaluation of a platform predicate against the target identifier and the
resolved flag list (`Platform::matches`). -/
def Platform.matches : Platform → String → List Cfg → Bool
  | .cfgName k, _, cs => cs.any fun c => decide (c.key = k ∧ c.value = none)
  | .cfgPair k v, _, cs => cs.any fun c => decide (c.key = k ∧ c.value = some v)
  | .triple t, target, _ => decide (t = target)

/-- Modelled from the spec: a version requirement (the semver machinery of
`cargo_metadata`, not under `src/`), abstracted over abstract `Nat` versions. -/
inductive VersionReq where
  | any
  | exact (v : Nat)
deriving DecidableEq, Repr

/-- Whether a version satisfies a requirement (`dep.req.matches(&p.version)`). -/
def VersionReq.matches : VersionReq → Nat → Bool
  | .any, _ => true
  | .exact v, v' => decide (v = v')

/-- The kind of a declared dependency (`cargo_metadata::DependencyKind`). -/
inductive DependencyKind where
  | normal
  | development
  | build
deriving DecidableEq, Repr

/-- A declared dependency record of a package (`cargo_metadata::Dependency`):
declared name, optional rename, version requirement, kind, and optional
platform predicate. -/
structure Dependency where
  name : String
  rename : Option String
  req : VersionReq
  kind : DependencyKind
  target : Option Platform
deriving DecidableEq, Repr

/-- A package of the metadata graph (`cargo_metadata::Package`): identity,
name, version, manifest location, and declared dependencies. -/
structure Package where
  id : String
  name : String
  version : Nat
  manifest_path : FsPath
  dependencies : List Dependency
deriving DecidableEq, Repr

/-- The package-graph document (`cargo_metadata::Metadata`). -/
structure Metadata where
  packages : List Package
deriving DecidableEq, Repr

/-- One line of the build tool's stdout, abstracted to the outcome of its
`serde_json::from_str::<cargo_metadata::Message>` parse: a compiler-artifact
event carrying the package identity and the output files, some other
recognized message, or a line that is not a message at all (silently skipped
by the code). -/
inductive BuildLine where
  | compilerArtifact (package_id : String) (filenames : List FsPath)
  | otherMessage
  | notAMessage
deriving DecidableEq, Repr

/-- One line of the metadata tool's stdout: a line that does not start with a
brace (skipped by the code), a line that starts with a brace but fails to
parse as a `Metadata` document, or the parsed package-graph document. -/
inductive MetaLine where
  | noBrace
  | malformed
  | graph (m : Metadata)
deriving DecidableEq, Repr

/-- An external command, as rendered into diagnostics (`{cmd:?}`). -/
structure Cmd where
  prog : String
  args : List String
deriving DecidableEq, Repr

/-- The external tools the pass may invoke.  `hostDetect` is the toolchain
query performed by `Config::fill_host_and_target`. -/
inductive Tool where
  | cfgQuery
  | buildDriver
  | metadataQuery
  | hostDetect
deriving DecidableEq, Repr

/-- `true` exactly for the three external tools named by the spec (the
host-detection query of `fill_host_and_target` is not one of them). -/
def isExternalTool : Tool → Bool
  | .hostDetect => false
  | _ => true

/-- Every way the pass can fail.  Constructors mirror the failure sites of the
source: `spawnFailure` and `utf8Failure` are the propagated io/`from_utf8`
errors, `cfgExit`/`buildExit`/`metadataExit` are the non-zero-exit `bail!`
sites carrying exactly the values interpolated into their messages,
`cfgFlagParse` and `metadataJsonParse` are the propagated parse errors,
`noJsonFound` is the final `bail!`, and the `panic…` constructors are the
`panic!`/`unwrap`/`expect` sites. -/
inductive Err where
  | spawnFailure (t : Tool)
  | utf8Failure (t : Tool)
  | hostDetectFailure
  | cfgExit (cmd : Cmd) (stderr : String) (stdout : List String)
  | cfgFlagParse (line : String)
  | buildExit (cmd : Cmd) (stderr : String) (stdout : List BuildLine)
  | metadataExit (stderr : String) (stdout : List MetaLine)
  | metadataJsonParse
  | noJsonFound
  | panicUnwrapTarget
  | panicCanonicalize
  | panicNoRootPackage
  | panicDepNotFound (name : String)
  | panicNoArtifact (name : String) (id : String) (stream : List BuildLine)
  | panicNoParent
deriving DecidableEq, Repr

/-- `true` exactly for the error forms whose diagnostic carries the command
line and both captured streams (the spec's ToolInvocationError shape). -/
def isCmdAndStreamsError : Err → Bool
  | .cfgExit _ _ _ => true
  | .buildExit _ _ _ => true
  | _ => false

/-- A captured subprocess result: exit status, stdout, stderr.  A stream is
`none` when its bytes are not valid UTF-8 (so `String::from_utf8` fails);
otherwise it is the decoded, line-split view of type `σ`. -/
structure ProcOut (σ : Type) where
  success : Bool
  stdout : Option σ
  stderr : Option String

/-- The external world of one resolution pass: the outcome of each subprocess
the code may spawn (`none` means the process could not be started), and the
filesystem's path canonicalization (`none` means `canonicalize` fails). -/
structure World where
  hostDetect : Option String
  cfgRun : Option (ProcOut (List String))
  buildRun : Option (ProcOut (List BuildLine))
  metadataRun : Option (ProcOut (List MetaLine))
  canon : FsPath → Option FsPath

/-- Modelled from the spec: the run mode; the "accept-all" mode (`Mode::Yolo`)
suppresses locking, every other mode is collapsed into `other` (declared
outside `src/`). -/
inductive Mode where
  | yolo
  | other
deriving DecidableEq, Repr

/-- Modelled from the spec: the output-conflict-handling policy (declared
outside `src/`); only the strict `Error` policy requests locking. -/
inductive OutputConflictHandling where
  | error (bless_hint : String)
  | ignore
deriving DecidableEq, Repr

/-- The slice of the host `Config` read by this subsystem. -/
structure Config where
  dependencies_crate_manifest_path : Option FsPath
  target : Option String
  host : Option String
  mode : Mode
  output_conflict_handling : OutputConflictHandling
  cfgs_cmd : String
  dependency_builder_cmd : String
  out_dir : FsPath

/-- The result record (`struct Dependencies`): the deduplicated import-path
directories and the ordered (alias, artifact files) pairs. -/
structure Dependencies where
  import_paths : List FsPath
  dependencies : List (String × List FsPath)
deriving DecidableEq, Repr

/-- Render a path into a command argument. -/
def pathStr (p : FsPath) : String :=
  String.intercalate "/" p

/-- The artifact map keyed by package identity, as an association list with at
most one entry per key (`HashMap<PackageId, Vec<Utf8PathBuf>>`). -/
abbrev AMap := List (String × List FsPath)

/-- Lookup in the artifact map. -/
def lookupA : AMap → String → Option (List FsPath)
  | [], _ => none
  | (k', v) :: rest, k => if k' = k then some v else lookupA rest k

/-- Erase a key from the artifact map. -/
def eraseA : AMap → String → AMap
  | [], _ => []
  | (k', v) :: rest, k =>
    if k' = k then eraseA rest k else (k', v) :: eraseA rest k

/-- Insert with overwrite, the semantics of `HashMap::insert` and hence of
collecting an iterator of pairs: a later pair for the same key replaces the
earlier one. -/
def insertA (m : AMap) (k : String) (v : List FsPath) : AMap :=
  (k, v) :: eraseA m k

/-- `HashMap::remove`: the removed value, if any, and the remaining map. -/
def removeA (m : AMap) (k : String) : Option (List FsPath) × AMap :=
  (lookupA m k, eraseA m k)

/-- `HashSet::insert` on the import-path set, keeping insertion order. -/
def insertPath (s : List FsPath) (p : FsPath) : List FsPath :=
  if p ∈ s then s else s ++ [p]

/-- `Utf8Path::parent`: `none` on an empty path, otherwise drop the last
component. -/
def parentPath : FsPath → Option FsPath
  | [] => none
  | x :: xs => some ((x :: xs).dropLast)

/-- For one artifact event, insert `filename.parent().unwrap()` for every
output file into the import-path set; `none` models the `unwrap` panic when a
file has no parent. -/
def insertParents : List FsPath → List FsPath → Option (List FsPath)
  | [], s => some s
  | f :: rest, s =>
    match parentPath f with
    | none => none
    | some d => insertParents rest (insertPath s d)

/-- The artifact-collection loop over the build-event stream (lines 83–96 of
`dependencies.rs`): compiler-artifact events contribute their files' parent
directories to the import-path set and their `(package_id, filenames)` pair to
the map; every other line is skipped. -/
def collectArtifacts : List BuildLine → List FsPath → AMap →
    Except Err (List FsPath × AMap)
  | [], ips, m => .ok (ips, m)
  | .compilerArtifact id files :: rest, ips, m =>
    match insertParents files ips with
    | none => .error .panicNoParent
    | some ips' => collectArtifacts rest ips' (insertA m id files)
  | .otherMessage :: rest, ips, m => collectArtifacts rest ips m
  | .notAMessage :: rest, ips, m => collectArtifacts rest ips m

/-- Split a flag line at the first `=`. -/
def breakEq : List Char → List Char × Option (List Char)
  | [] => ([], none)
  | c :: rest =>
    if c = '=' then ([], some rest)
    else
      let p := breakEq rest
      (c :: p.1, p.2)

/-- Strip one level of surrounding double quotes from a flag value. -/
def stripQuotes (v : List Char) : List Char :=
  if 2 ≤ v.length ∧ v.head? = some '"' ∧ v.getLast? = some '"' then
    (v.drop 1).dropLast
  else v

/-- Modelled from the spec: the flag grammar of the configuration-query output
(`cargo_platform::Cfg::from_str`, not under `src/`): a bare key, or
`key=value` with an optionally quoted value; an empty key does not match the
grammar. -/
def parseCfg (line : String) : Option Cfg :=
  match breakEq line.data with
  | ([], _) => none
  | (k, none) => some ⟨⟨k⟩, none⟩
  | (k, some v) => some ⟨⟨k⟩, some ⟨stripQuotes v⟩⟩

/-- The parsing loop of `cfgs`: each line is parsed independently and the
first grammar failure aborts with that line's parse error. -/
def parseCfgLines : List String → Except Err (List Cfg)
  | [] => .ok []
  | l :: rest =>
    match parseCfg l with
    | none => .error (.cfgFlagParse l)
    | some c =>
      match parseCfgLines rest with
      | .error e => .error e
      | .ok cs => .ok (c :: cs)

/-- The configuration-flag query command: the configured template with
`--target <target>` appended (the target is `unwrap`ped before this point). -/
def cfgCmd (config : Config) (t : String) : Cmd :=
  ⟨config.cfgs_cmd, ["--target", t]⟩

/-- The `cfgs` function (lines 22–41 of `dependencies.rs`).  The returned list
records the attempted tool invocations.  Note the order of the source: the
target is `unwrap`ped while building the command, stdout is UTF-8-decoded
before the exit status is checked, and stderr is decoded only in the failure
branch. -/
def cfgs (config : Config) (w : World) : List Tool × Except Err (List Cfg) :=
  match config.target with
  | none => ([], .error .panicUnwrapTarget)
  | some t =>
    match w.cfgRun with
    | none => ([.cfgQuery], .error (.spawnFailure .cfgQuery))
    | some po =>
      match po.stdout with
      | none => ([.cfgQuery], .error (.utf8Failure .cfgQuery))
      | some lines =>
        if po.success then ([.cfgQuery], parseCfgLines lines)
        else
          match po.stderr with
          | none => ([.cfgQuery], .error (.utf8Failure .cfgQuery))
          | some err =>
            ([.cfgQuery], .error (.cfgExit (cfgCmd config t) err lines))

/-- Modelled from the spec: `Config::fill_host_and_target` (not under `src/`)
idempotently memoizes the lazily-detected host triple by querying the
toolchain when it is unset; the spec lists the target identifier as an input
that is required from the configuration collaborator once any invocation
occurs, so the target is left untouched. -/
def fillHostTarget (config : Config) (w : World) :
    List Tool × Except Err Config :=
  match config.host with
  | some _ => ([], .ok config)
  | none =>
    match w.hostDetect with
    | none => ([.hostDetect], .error .hostDetectFailure)
    | some h =>
      ([.hostDetect],
        .ok ⟨config.dependencies_crate_manifest_path, config.target, some h,
          config.mode, config.output_conflict_handling, config.cfgs_cmd,
          config.dependency_builder_cmd, config.out_dir⟩)

/-- The `set_locking` closure (lines 60–66): no locking flag in the accept-all
mode, `--locked` under the strict conflict-handling policy, nothing
otherwise. -/
def lockingArgs (config : Config) : List String :=
  match config.output_conflict_handling, config.mode with
  | _, .yolo => []
  | .error _, _ => ["--locked"]
  | _, _ => []

/-- The build invocation command (lines 52–69): the manifest path, an optional
`--target=<t>`, the locking flag, and the machine-readable output request. -/
def buildCmd (config : Config) (manifest : FsPath) : Cmd :=
  ⟨config.dependency_builder_cmd,
    [pathStr manifest] ++
      (match config.target with
        | some t => ["--target=" ++ t]
        | none => []) ++
      lockingArgs config ++ ["--message-format=json"]⟩

/-- The root-package search (lines 124–131): the first package whose
canonicalized manifest path equals the canonicalized input manifest path; a
failing canonicalization or an exhausted search is an `unwrap` panic. -/
def findRoot (canon : FsPath → Option FsPath) (manifest : FsPath) :
    List Package → Except Err Package
  | [] => .error .panicNoRootPackage
  | p :: rest =>
    match canon p.manifest_path with
    | none => .error .panicCanonicalize
    | some a =>
      match canon manifest with
      | none => .error .panicCanonicalize
      | some b =>
        if a = b then .ok p else findRoot canon manifest rest

/-- The package search for a dependency (lines 144–148): the first package
whose name equals the declared name and whose version satisfies the
requirement. -/
def findPackage (packages : List Package) (dep : Dependency) : Option Package :=
  packages.find? fun p => decide (p.name = dep.name) && dep.req.matches p.version

/-- `name.replace('-', "_")`: every hyphen becomes an underscore. -/
def replaceDash (s : String) : String :=
  ⟨s.data.map fun c => if c = '-' then '_' else c⟩

/-- The artifact-lookup step for one `(package, name)` pair (lines 156–173):
claim the package's entry from the artifact map and emit the normalized alias
with the artifact files; with no entry, a pair whose name equals the root
package's name is silently dropped, and any other pair aborts with the
missing-artifact panic carrying the name, the package identity, and the full
build-event stream. -/
def resolveEntry (rootName : String) (stream : List BuildLine) (arts : AMap)
    (pkg : Package) (name : String) :
    Except Err (Option (String × List FsPath) × AMap) :=
  match removeA arts pkg.id with
  | (some files, arts') => .ok (some (replaceDash name, files), arts')
  | (none, _) =>
    if name = rootName then .ok (none, arts)
    else .error (.panicNoArtifact name pkg.id stream)

/-- Processing of one dependency that passed both filters: resolve it to a
package (panicking like `expect` when none matches) and run the
artifact-lookup step under its effective alias (`dep.rename` or the package's
own name). -/
def processKept (packages : List Package) (rootName : String)
    (stream : List BuildLine) (arts : AMap) (d : Dependency) :
    Except Err (Option (String × List FsPath) × AMap) :=
  match findPackage packages d with
  | none => .error (.panicDepNotFound d.name)
  | some p => resolveEntry rootName stream arts p (d.rename.getD p.name)

/-- Processing of one declared dependency (lines 137–173, per element of the
lazy iterator): drop it unless it is of normal kind, then drop it unless it
has no platform predicate or its predicate matches the `unwrap`ped target and
the resolved flags, then resolve and look up its artifact. -/
def processDep (packages : List Package) (target? : Option String)
    (cfg : List Cfg) (rootName : String) (stream : List BuildLine)
    (arts : AMap) (d : Dependency) :
    Except Err (Option (String × List FsPath) × AMap) :=
  if d.kind = .normal then
    match d.target with
    | none => processKept packages rootName stream arts d
    | some platform =>
      match target? with
      | none => .error .panicUnwrapTarget
      | some t =>
        if platform.matches t cfg then processKept packages rootName stream arts d
        else .ok (none, arts)
  else .ok (none, arts)

/-- Processing of the whole declared dependency list, threading the artifact
map (each claimed entry is removed) and collecting the emitted pairs in
order. -/
def processDeps (packages : List Package) (target? : Option String)
    (cfg : List Cfg) (rootName : String) (stream : List BuildLine) :
    List Dependency → AMap →
    Except Err (List (String × List FsPath) × AMap)
  | [], arts => .ok ([], arts)
  | d :: rest, arts =>
    match processDep packages target? cfg rootName stream arts d with
    | .error e => .error e
    | .ok (pr, arts') =>
      match processDeps packages target? cfg rootName stream rest arts' with
      | .error e => .error e
      | .ok (ps, arts'') =>
        .ok ((match pr with
          | some p => p :: ps
          | none => ps), arts'')

/-- The dependency-graph resolution for one parsed metadata document (lines
124–174): find the root, process its declared dependencies, then chain the
root itself through the artifact-lookup step under its own name. -/
def resolveGraph (canon : FsPath → Option FsPath) (manifest : FsPath)
    (target? : Option String) (cfg : List Cfg) (m : Metadata)
    (stream : List BuildLine) (arts : AMap) :
    Except Err (List (String × List FsPath)) :=
  match findRoot canon manifest m.packages with
  | .error e => .error e
  | .ok root =>
    match processDeps m.packages target? cfg root.name stream
        root.dependencies arts with
    | .error e => .error e
    | .ok (ps, arts') =>
      match resolveEntry root.name stream arts' root root.name with
      | .error e => .error e
      | .ok (pr, _) =>
        .ok (ps ++ (match pr with
          | some p => [p]
          | none => []))

/-- The scan of the metadata output (lines 116–120 and 182): skip lines that
do not start with a brace; the first brace line either parses as the graph
document or propagates its JSON parse error; with no brace line at all, fail
with the `no json found` bail. -/
def locateGraphLine : List MetaLine → Except Err Metadata
  | [] => .error .noJsonFound
  | .noBrace :: rest => locateGraphLine rest
  | .malformed :: _ => .error .metadataJsonParse
  | .graph m :: _ => .ok m

/-- The `build_dependencies` function (lines 44–183), returning the ordered
list of attempted tool invocations together with the result.  The sequencing
mirrors the source: early return with an empty default when no manifest path
is configured; `fill_host_and_target`; the build invocation with stdout
decoded only after the status check; the artifact collection; the metadata
invocation; the `cfgs` query (invoked after the metadata query but before the
metadata output is scanned); then the graph scan and resolution. -/
def build_dependencies (config : Config) (w : World) :
    List Tool × Except Err Dependencies :=
  match config.dependencies_crate_manifest_path with
  | none => ([], .ok ⟨[], []⟩)
  | some manifest =>
    match fillHostTarget config w with
    | (tr0, .error e) => (tr0, .error e)
    | (tr0, .ok config) =>
      match w.buildRun with
      | none => (tr0 ++ [.buildDriver], .error (.spawnFailure .buildDriver))
      | some po =>
        if po.success then
          match po.stdout with
          | none => (tr0 ++ [.buildDriver], .error (.utf8Failure .buildDriver))
          | some stream =>
            match collectArtifacts stream [] [] with
            | .error e => (tr0 ++ [.buildDriver], .error e)
            | .ok (ips, arts) =>
              match w.metadataRun with
              | none =>
                (tr0 ++ [.buildDriver] ++ [.metadataQuery],
                  .error (.spawnFailure .metadataQuery))
              | some mo =>
                if mo.success then
                  match mo.stdout with
                  | none =>
                    (tr0 ++ [.buildDriver] ++ [.metadataQuery],
                      .error (.utf8Failure .metadataQuery))
                  | some metaLines =>
                    match cfgs config w with
                    | (trc, .error e) =>
                      (tr0 ++ [.buildDriver] ++ [.metadataQuery] ++ trc,
                        .error e)
                    | (trc, .ok cfg) =>
                      match locateGraphLine metaLines with
                      | .error e =>
                        (tr0 ++ [.buildDriver] ++ [.metadataQuery] ++ trc,
                          .error e)
                      | .ok m =>
                        match resolveGraph w.canon manifest config.target cfg m
                            stream arts with
                        | .error e =>
                          (tr0 ++ [.buildDriver] ++ [.metadataQuery] ++ trc,
                            .error e)
                        | .ok ps =>
                          (tr0 ++ [.buildDriver] ++ [.metadataQuery] ++ trc,
                            .ok ⟨ips, ps⟩)
                else
                  match mo.stdout with
                  | none =>
                    (tr0 ++ [.buildDriver] ++ [.metadataQuery],
                      .error (.utf8Failure .metadataQuery))
                  | some sout =>
                    match mo.stderr with
                    | none =>
                      (tr0 ++ [.buildDriver] ++ [.metadataQuery],
                        .error (.utf8Failure .metadataQuery))
                    | some serr =>
                      (tr0 ++ [.buildDriver] ++ [.metadataQuery],
                        .error (.metadataExit serr sout))
        else
          match po.stdout with
          | none => (tr0 ++ [.buildDriver], .error (.utf8Failure .buildDriver))
          | some sout =>
            match po.stderr with
            | none =>
              (tr0 ++ [.buildDriver], .error (.utf8Failure .buildDriver))
            | some serr =>
              (tr0 ++ [.buildDriver],
                .error (.buildExit (buildCmd config manifest) serr sout))

/-! ## Map lemmas -/

theorem lookupA_eraseA (m : AMap) (k k' : String) :
    lookupA (eraseA m k) k' = if k = k' then none else lookupA m k' := by
  induction m with
  | nil => simp [eraseA, lookupA]
  | cons kv rest ih =>
    obtain ⟨a, v⟩ := kv
    by_cases h1 : a = k
    · subst h1
      by_cases h2 : a = k'
      · subst h2; simp [eraseA, lookupA, ih]
      · simp [eraseA, lookupA, ih, h2]
    · by_cases h2 : a = k'
      · subst h2
        have hk : ¬ k = a := fun h => h1 h.symm
        simp [eraseA, lookupA, h1, hk]
      · simp [eraseA, lookupA, h1, h2, ih]

theorem lookupA_insertA (m : AMap) (k k' : String) (v : List FsPath) :
    lookupA (insertA m k v) k' = if k = k' then some v else lookupA m k' := by
  by_cases h : k = k' <;> simp [insertA, lookupA, lookupA_eraseA, h]

/-- The files recorded for `id` after folding the stream over a starting
value: the last compiler-artifact event for `id` wins, and with no such event
the starting value is kept. -/
def lastFilesFrom (start : Option (List FsPath)) (id : String) :
    List BuildLine → Option (List FsPath)
  | [] => start
  | .compilerArtifact i fs :: rest =>
    lastFilesFrom (if i = id then some fs else start) id rest
  | .otherMessage :: rest => lastFilesFrom start id rest
  | .notAMessage :: rest => lastFilesFrom start id rest

/-! ## C1: artifact accumulation vs. overwriting -/

/-- The two-event stream used to settle C1: the same package identity `A`
appears in two compiler-artifact events with different output files. -/
def streamA : List BuildLine :=
  [.compilerArtifact "A" [["d", "f1"]], .compilerArtifact "A" [["d", "f2"]]]

/-- Claim C1, counterexample: on a stream with two compiler-artifact events
for the same identity, the artifact map holds exactly the second event's
files; the first event's file is not in the entry, so the entry is not the
union of the files of all events. -/
theorem artifact_map_not_union :
    collectArtifacts streamA [] [] = .ok ([["d"]], [("A", [["d", "f2"]])]) ∧
    lookupA [("A", [["d", "f2"]])] "A" = some [["d", "f2"]] ∧
    (["d", "f1"] ∈ [["d", "f2"]] ↔ False) ∧
    (["d", "f1"] : FsPath) ≠ ["d", "f2"] :=
  ⟨rfl, rfl, by simp, by decide⟩

/-- Claim C1, amended: for every build-event stream, the artifact map built
by the Build Driver maps an identity to the output files of the **last**
compiler-artifact event for that identity — a later event overwrites an
earlier one — and, with no event for the identity, to whatever the starting
map holds. -/
theorem artifact_map_last_event_wins (stream : List BuildLine)
    (ips ips' : List FsPath) (m m' : AMap) (id : String)
    (h : collectArtifacts stream ips m = .ok (ips', m')) :
    lookupA m' id = lastFilesFrom (lookupA m id) id stream := by
  induction stream generalizing ips m with
  | nil =>
    simp only [collectArtifacts] at h
    obtain ⟨h1, h2⟩ := Prod.mk.injEq .. ▸ Except.ok.injEq .. ▸ h
    subst h2
    rfl
  | cons l rest ih =>
    cases l with
    | compilerArtifact i fs =>
      simp only [collectArtifacts] at h
      cases hins : insertParents fs ips with
      | none => rw [hins] at h; cases h
      | some ips2 =>
        rw [hins] at h
        have := ih _ _ h
        rw [this, lookupA_insertA]
        rfl
    | otherMessage => exact ih _ _ h
    | notAMessage => exact ih _ _ h

/-- Claim C1 witness: the amended theorem evaluated on the concrete two-event
stream. -/
theorem artifact_map_last_event_wins_witness :
    lookupA [("A", [["d", "f2"]])] "A" =
      lastFilesFrom (lookupA [] "A") "A" streamA :=
  artifact_map_last_event_wins streamA [] [["d"]] [] [("A", [["d", "f2"]])]
    "A" rfl

/-! ## C6: no manifest path configured -/

/-- Claim C6: with no configured manifest path, resolution returns an empty
dependency list and an empty import-path set and attempts no subprocess
invocation at all. -/
theorem no_manifest_empty_result (config : Config) (w : World)
    (h : config.dependencies_crate_manifest_path = none) :
    build_dependencies config w = ([], .ok ⟨[], []⟩) := by
  unfold build_dependencies
  rw [h]

/-- A configuration with no manifest path, for the C6 witness. -/
def cfgNoManifest : Config :=
  ⟨none, some "tgt", none, .other, .ignore, "rustc", "cargo", ["out"]⟩

/-- A world for the C6 witness. -/
def worldAny : World := ⟨none, none, none, none, fun _ => none⟩

/-- Claim C6 witness: the theorem evaluated on a concrete configuration. -/
theorem no_manifest_empty_result_witness :
    build_dependencies cfgNoManifest worldAny = ([], .ok ⟨[], []⟩) :=
  no_manifest_empty_result cfgNoManifest worldAny rfl

/-! ## C2 and C9: the missing-artifact asymmetry -/

/-- The root package of the concrete C2/C3 scenario: it declares one normal
dependency on package `dep`, renamed to the root's own name `root`. -/
def pkgRootC2 : Package :=
  ⟨"R", "root", 1, ["m"], [⟨"dep", some "root", .any, .normal, none⟩]⟩

/-- The dependency package of the concrete C2 scenario; the build stream
produces no artifact for its identity `P`. -/
def pkgDepC2 : Package := ⟨"P", "dep", 1, ["q"], []⟩

/-- The configuration of the concrete C2/C3/C4 scenarios. -/
def cfgRun : Config :=
  ⟨some ["m"], some "tgt", some "host", .other, .ignore, "rustc", "cargo",
    ["out"]⟩

/-- The world of the concrete C2 scenario: the build emits one artifact for
the root identity `R` and none for the dependency identity `P`, and the
metadata query returns the two-package graph. -/
def worldC2 : World :=
  ⟨some "host",
    some ⟨true, some [], some ""⟩,
    some ⟨true, some [.compilerArtifact "R" [["d", "r.rmeta"]]], some ""⟩,
    some ⟨true, some [.graph ⟨[pkgRootC2, pkgDepC2]⟩], some ""⟩,
    fun p => some p⟩

/-- Claim C2, counterexample: package `P` is a non-root resolved dependency
with no entry in the artifact map (the map holds only identity `R`), yet the
pass does not fail: because the dependency's effective alias `root` equals the
root package's name, the pair is silently omitted and resolution succeeds with
only the root's entry. -/
theorem nonroot_missing_artifact_not_fatal :
    collectArtifacts [.compilerArtifact "R" [["d", "r.rmeta"]]] [] [] =
      .ok ([["d"]], [("R", [["d", "r.rmeta"]])]) ∧
    lookupA [("R", [["d", "r.rmeta"]])] "P" = none ∧
    findPackage [pkgRootC2, pkgDepC2] ⟨"dep", some "root", .any, .normal, none⟩ =
      some pkgDepC2 ∧
    build_dependencies cfgRun worldC2 =
      ([.buildDriver, .metadataQuery, .cfgQuery],
        .ok ⟨[["d"]], [("root", [["d", "r.rmeta"]])]⟩) :=
  ⟨rfl, rfl, rfl, rfl⟩

/-- Claim C2, amended: in the artifact-lookup step, a pair whose package has
no entry in the artifact map is handled asymmetrically by comparing the
pair's alias with the root package's name: with an alias equal to the root's
name (in particular, always, for the root package itself) the pair is omitted
without error, and with any other alias the pass aborts fatally with the
missing-artifact panic whose diagnostic carries the alias, the package
identity, and the full raw build-event stream. -/
theorem missing_artifact_asymmetry (rootName : String)
    (stream : List BuildLine) (arts : AMap) (pkg : Package) (name : String)
    (h : lookupA arts pkg.id = none) :
    resolveEntry rootName stream arts pkg name =
      if name = rootName then .ok (none, arts)
      else .error (.panicNoArtifact name pkg.id stream) := by
  simp [resolveEntry, removeA, h]

/-- Claim C2 witness: the amended theorem evaluated at a pair whose alias
differs from the root name (the fatal branch) and at the root itself (the
omission branch). -/
theorem missing_artifact_asymmetry_witness :
    resolveEntry "root" streamA [] pkgDepC2 "dep" =
      .error (.panicNoArtifact "dep" "P" streamA) ∧
    resolveEntry "root" streamA [] pkgRootC2 "root" = .ok (none, []) :=
  ⟨(missing_artifact_asymmetry "root" streamA [] pkgDepC2 "dep" rfl).trans
      rfl,
    (missing_artifact_asymmetry "root" streamA [] pkgRootC2 "root" rfl).trans
      rfl⟩

/-- Claim C9: the root-versus-dependency distinction of the artifact-lookup
step is decided by the alias name, not by package identity: any dependency of
normal kind with no platform predicate that resolves to some package — any
package at all, in particular one different from the root — and whose declared
rename equals the root package's name is silently dropped when that package
has no artifact-map entry, instead of hitting the fatal missing-artifact
case. -/
theorem alias_name_decides_root (packages : List Package)
    (target? : Option String) (cfg : List Cfg) (rootName : String)
    (stream : List BuildLine) (arts : AMap) (d : Dependency) (p : Package)
    (hkind : d.kind = .normal) (htarget : d.target = none)
    (hrename : d.rename = some rootName)
    (hfind : findPackage packages d = some p)
    (hmiss : lookupA arts p.id = none) :
    processDep packages target? cfg rootName stream arts d = .ok (none, arts) := by
  simp [processDep, hkind, htarget, processKept, hfind, hrename,
    resolveEntry, removeA, hmiss]

/-- Claim C9 witness: the theorem evaluated on the concrete scenario where
the dependency resolves to the non-root package `P` (identity `P`, distinct
from the root's identity `R`) with no artifact entry. -/
theorem alias_name_decides_root_witness :
    processDep [pkgRootC2, pkgDepC2] (some "tgt") [] "root" []
        [("R", [["d", "r.rmeta"]])] ⟨"dep", some "root", .any, .normal, none⟩ =
      .ok (none, [("R", [["d", "r.rmeta"]])]) ∧
    pkgDepC2.id ≠ pkgRootC2.id :=
  ⟨alias_name_decides_root [pkgRootC2, pkgDepC2] (some "tgt") [] "root" []
      [("R", [["d", "r.rmeta"]])] ⟨"dep", some "root", .any, .normal, none⟩
      pkgDepC2 rfl rfl rfl rfl rfl,
    by decide⟩

/-! ## C3: invocation order -/

/-- Helper: a successful `fill_host_and_target` contributes none of the three
external tools to the trace (at most the host-detection query). -/
theorem fillHostTarget_trace_ok (config config' : Config) (w : World)
    (tr0 : List Tool) (h : fillHostTarget config w = (tr0, .ok config')) :
    tr0.filter isExternalTool = [] := by
  unfold fillHostTarget at h
  split at h
  next =>
    obtain ⟨h1, h2⟩ := Prod.mk.injEq .. ▸ h
    subst h1; rfl
  next =>
    split at h
    next => exact Except.noConfusion (Prod.mk.injEq .. ▸ h).2
    next =>
      obtain ⟨h1, h2⟩ := Prod.mk.injEq .. ▸ h
      subst h1; rfl

/-- Helper: whenever `cfgs` returns (even unsuccessfully past the spawn), it
was invoked exactly once; here specialized to successful returns. -/
theorem cfgs_ok_trace (config : Config) (w : World) (trc : List Tool)
    (cs : List Cfg) (h : cfgs config w = (trc, .ok cs)) : trc = [.cfgQuery] := by
  unfold cfgs at h
  split at h
  next => exact Except.noConfusion (Prod.mk.injEq .. ▸ h).2
  next =>
    split at h
    next => exact ((Prod.mk.injEq .. ▸ h).1).symm
    next =>
      split at h
      next => exact ((Prod.mk.injEq .. ▸ h).1).symm
      next =>
        split at h
        next => exact ((Prod.mk.injEq .. ▸ h).1).symm
        next =>
          split at h
          next => exact ((Prod.mk.injEq .. ▸ h).1).symm
          next => exact ((Prod.mk.injEq .. ▸ h).1).symm

/-- Claim C3, amended: in every resolution pass with a configured manifest
that returns successfully, the three external-tool invocations occur in the
order: Build Driver first, Dependency Graph (metadata) Resolver second,
Platform Configuration Resolver last.  The configuration output is
nevertheless available before the dependency filtering consumes it, because
the metadata output is scanned and filtered only after all three invocations
have returned. -/
theorem invocation_order (config : Config) (w : World) (manifest : FsPath)
    (d : Dependencies) (tr : List Tool)
    (hm : config.dependencies_crate_manifest_path = some manifest)
    (h : build_dependencies config w = (tr, .ok d)) :
    tr.filter isExternalTool = [.buildDriver, .metadataQuery, .cfgQuery] := by
  unfold build_dependencies at h
  rw [hm] at h
  cases hfill : fillHostTarget config w with
  | mk tr0 r0 =>
  rw [hfill] at h
  cases r0 with
  | error e => simp at h
  | ok config2 =>
  have htr0 : tr0.filter isExternalTool = [] :=
    fillHostTarget_trace_ok config config2 w tr0 hfill
  simp only [] at h
  cases hbr : w.buildRun with
  | none => rw [hbr] at h; simp at h
  | some po =>
  rw [hbr] at h
  simp only [] at h
  cases hsucc : po.success with
  | false =>
    rw [hsucc] at h
    simp only [Bool.false_eq_true, if_false] at h
    cases hout : po.stdout with
    | none => rw [hout] at h; simp at h
    | some sout =>
      rw [hout] at h
      simp only [] at h
      cases herr : po.stderr with
      | none => rw [herr] at h; simp at h
      | some serr => rw [herr] at h; simp at h
  | true =>
  rw [hsucc] at h
  rw [if_pos rfl] at h
  cases hout : po.stdout with
  | none => rw [hout] at h; simp at h
  | some stream =>
  rw [hout] at h
  simp only [] at h
  cases hcoll : collectArtifacts stream [] [] with
  | error e => rw [hcoll] at h; simp at h
  | ok pa =>
  obtain ⟨ips, arts⟩ := pa
  rw [hcoll] at h
  simp only [] at h
  cases hmr : w.metadataRun with
  | none => rw [hmr] at h; simp at h
  | some mo =>
  rw [hmr] at h
  simp only [] at h
  cases hms : mo.success with
  | false =>
    rw [hms] at h
    simp only [Bool.false_eq_true, if_false] at h
    cases hmout : mo.stdout with
    | none => rw [hmout] at h; simp at h
    | some sout =>
      rw [hmout] at h
      simp only [] at h
      cases herr : mo.stderr with
      | none => rw [herr] at h; simp at h
      | some serr => rw [herr] at h; simp at h
  | true =>
  rw [hms] at h
  rw [if_pos rfl] at h
  cases hmout : mo.stdout with
  | none => rw [hmout] at h; simp at h
  | some metaLines =>
  rw [hmout] at h
  simp only [] at h
  cases hcfgs : cfgs config2 w with
  | mk trc rc =>
  rw [hcfgs] at h
  cases rc with
  | error e => simp at h
  | ok cfg =>
  have htrc : trc = [.cfgQuery] := cfgs_ok_trace config2 w trc cfg hcfgs
  simp only [] at h
  cases hloc : locateGraphLine metaLines with
  | error e => rw [hloc] at h; simp at h
  | ok m =>
  rw [hloc] at h
  simp only [] at h
  cases hres : resolveGraph w.canon manifest config2.target cfg m stream arts with
  | error e => rw [hres] at h; simp at h
  | ok ps =>
  rw [hres] at h
  simp only [] at h
  obtain ⟨h1, h2⟩ := Prod.mk.injEq .. ▸ h
  subst h1
  subst htrc
  simp [List.filter_append, htr0, isExternalTool]

/-- Claim C3 witness: the amended theorem evaluated on the concrete
successful scenario. -/
theorem invocation_order_witness :
    List.filter isExternalTool [.buildDriver, .metadataQuery, .cfgQuery] =
      [Tool.buildDriver, .metadataQuery, .cfgQuery] :=
  invocation_order cfgRun worldC2 ["m"]
    ⟨[["d"]], [("root", [["d", "r.rmeta"]])]⟩
    [.buildDriver, .metadataQuery, .cfgQuery] rfl rfl

/-- Claim C3, counterexample: on a concrete successful pass the attempted
invocations are, in order, the build driver, then the metadata query, then
the configuration-flag query — not the claimed order with the Platform
Configuration Resolver first and the metadata resolver last. -/
theorem invocation_order_counterexample :
    (build_dependencies cfgRun worldC2).1 =
      [.buildDriver, .metadataQuery, .cfgQuery] ∧
    ([.buildDriver, .metadataQuery, .cfgQuery] : List Tool) ≠
      [.cfgQuery, .buildDriver, .metadataQuery] :=
  ⟨rfl, by decide⟩

/-! ## C4: locating the package-graph line -/

/-- The world of the concrete C4 scenario: the metadata query succeeds but its
only output line starts with a brace and fails to parse as the graph
document. -/
def worldC4 : World :=
  ⟨some "host",
    some ⟨true, some [], some ""⟩,
    some ⟨true, some [], some ""⟩,
    some ⟨true, some [.malformed], some ""⟩,
    fun p => some p⟩

/-- Claim C4, counterexample: on a metadata output whose only line is a brace
line that is not a complete package-graph document — so no line of the output
is a complete document — resolution fails with the propagated JSON parse
error, not with the `no json found` resolution error naming the absence of
graph data. -/
theorem malformed_graph_line_counterexample :
    (build_dependencies cfgRun worldC4).2 = .error .metadataJsonParse ∧
    Err.metadataJsonParse ≠ Err.noJsonFound :=
  ⟨rfl, by decide⟩

/-- Claim C4, amended: while locating the package-graph line, only lines that
do not start with a brace are skipped; if every line of the output is such a
line (in particular if the output is empty), resolution fails with the
resolution error naming the absence of graph data; and the first brace line,
when it is not a complete package-graph document, aborts the scan with its
JSON parse error instead. -/
theorem locate_graph_line_spec :
    (∀ rest : List MetaLine,
        locateGraphLine (.noBrace :: rest) = locateGraphLine rest) ∧
    (∀ lines : List MetaLine, (∀ l ∈ lines, l = .noBrace) →
        locateGraphLine lines = .error .noJsonFound) ∧
    (∀ rest : List MetaLine,
        locateGraphLine (.malformed :: rest) = .error .metadataJsonParse) := by
  refine ⟨fun rest => rfl, ?_, fun rest => rfl⟩
  intro lines hall
  induction lines with
  | nil => rfl
  | cons l rest ih =>
    have hl : l = .noBrace := hall l (List.mem_cons_self l rest)
    subst hl
    exact ih fun x hx => hall x (List.mem_cons_of_mem _ hx)

/-- Claim C4 witness: the amended theorem evaluated on a concrete all-skipped
output. -/
theorem locate_graph_line_spec_witness :
    locateGraphLine [.noBrace, .noBrace] = .error .noJsonFound :=
  locate_graph_line_spec.2.1 [.noBrace, .noBrace] (by decide)

/-! ## C5: kind and platform filtering -/

/-- Helper: a dependency of non-normal kind, or one whose platform predicate
evaluates false against the target and the resolved flags, is processed to
nothing and leaves the artifact map untouched. -/
theorem processDep_skip (packages : List Package) (t : String) (cfg : List Cfg)
    (rootName : String) (stream : List BuildLine) (arts : AMap)
    (d : Dependency)
    (h : d.kind ≠ .normal ∨ ∃ p, d.target = some p ∧ p.matches t cfg = false) :
    processDep packages (some t) cfg rootName stream arts d = .ok (none, arts) := by
  rcases h with h | ⟨p, hp, hpm⟩
  · simp [processDep, h]
  · by_cases hk : d.kind = .normal
    · simp [processDep, hk, hp, hpm]
    · simp [processDep, hk]

/-- Claim C5: only dependencies of normal kind are considered and a
dependency whose platform predicate evaluates false against the resolved
flags and target is absent from the output — removing such a dependency from
the declared list does not change the result at all, whatever the artifact
map holds for it — while a normal-kind dependency with no predicate is always
kept (it always proceeds to resolution and artifact lookup). -/
theorem dependency_filtering (packages : List Package) (t : String)
    (cfg : List Cfg) (rootName : String) (stream : List BuildLine) :
    (∀ (l₁ l₂ : List Dependency) (d : Dependency) (arts : AMap),
        (d.kind ≠ .normal ∨ ∃ p, d.target = some p ∧ p.matches t cfg = false) →
        processDeps packages (some t) cfg rootName stream (l₁ ++ d :: l₂) arts =
          processDeps packages (some t) cfg rootName stream (l₁ ++ l₂) arts) ∧
    (∀ (d : Dependency) (arts : AMap), d.kind = .normal → d.target = none →
        processDep packages (some t) cfg rootName stream arts d =
          processKept packages rootName stream arts d) := by
  constructor
  · intro l₁ l₂ d arts h
    induction l₁ generalizing arts with
    | nil =>
      simp only [List.nil_append, processDeps,
        processDep_skip packages t cfg rootName stream arts d h]
      cases hpd : processDeps packages (some t) cfg rootName stream l₂ arts with
      | error e => rfl
      | ok pr => obtain ⟨ps, a2⟩ := pr; rfl
    | cons a l₁ ih =>
      simp only [List.cons_append, processDeps]
      cases hpa : processDep packages (some t) cfg rootName stream arts a with
      | error e => rfl
      | ok pa =>
        obtain ⟨pr, arts'⟩ := pa
        show (match processDeps packages (some t) cfg rootName stream
            (l₁ ++ d :: l₂) arts' with
          | Except.error e => Except.error e
          | Except.ok (ps, arts'') =>
            Except.ok ((match pr with
              | some p => p :: ps
              | none => ps), arts'')) = _
        rw [ih arts']
        rfl
  · intro d arts hk ht
    simp [processDep, hk, ht]

/-- The platform-conditional dependency of the concrete C5 scenario: it
requires the valued flag `target_os=linux`. -/
def depBeta : Dependency :=
  ⟨"beta", none, .any, .normal, some (.cfgPair "target_os" "linux")⟩

/-- The package resolved by `depBeta`; its identity `B` has an artifact. -/
def pkgBeta : Package := ⟨"B", "beta", 1, ["b"], []⟩

/-- Claim C5 witness: with resolved flags that lack `target_os=linux`, the
beta dependency is absent from the output even though its package produced an
artifact. -/
theorem dependency_filtering_witness :
    processDeps [pkgBeta] (some "x86") [] "root" [] [depBeta]
        [("B", [["d", "beta.rmeta"]])] =
      processDeps [pkgBeta] (some "x86") [] "root" [] []
        [("B", [["d", "beta.rmeta"]])] ∧
    processDeps [pkgBeta] (some "x86") [] "root" [] []
        [("B", [["d", "beta.rmeta"]])] =
      .ok ([], [("B", [["d", "beta.rmeta"]])]) :=
  ⟨(dependency_filtering [pkgBeta] "x86" [] "root" []).1 [] [] depBeta
      [("B", [["d", "beta.rmeta"]])]
      (Or.inr ⟨.cfgPair "target_os" "linux", rfl, rfl⟩),
    rfl⟩

/-! ## C7: failure behavior of the configuration-flag query -/

/-- Helper: with any grammar-failing line in the output, the parse loop fails
with the flag parse error of the first failing line. -/
theorem parseCfgLines_fails (lines : List String) (l : String)
    (hl : l ∈ lines) (hp : parseCfg l = none) :
    ∃ l', parseCfg l' = none ∧
      parseCfgLines lines = .error (.cfgFlagParse l') := by
  induction lines with
  | nil => cases hl
  | cons a rest ih =>
    cases hpa : parseCfg a with
    | none => exact ⟨a, hpa, by simp [parseCfgLines, hpa]⟩
    | some c =>
      rcases List.mem_cons.mp hl with h | h
      · subst h; rw [hp] at hpa; cases hpa
      · obtain ⟨l', h1, h2⟩ := ih h
        exact ⟨l', h1, by simp [parseCfgLines, hpa, h2]⟩

/-- Claim C7, amended: for the configuration-flag query, a process that exits
non-zero with both captured streams decodable as UTF-8 yields the
tool-invocation error carrying the command line and both streams; a process
that cannot start yields the bare propagated spawn error (there are no
streams and no command line in it); an undecodable stdout yields the UTF-8
(parse) error; and a decodable output containing a line that does not match
the flag grammar yields a flag parse error. -/
theorem cfgs_error_spec (config : Config) (w : World) (t : String)
    (ht : config.target = some t) :
    (w.cfgRun = none →
        (cfgs config w).2 = .error (.spawnFailure .cfgQuery)) ∧
    (∀ (po : ProcOut (List String)) (lines : List String) (err : String),
        w.cfgRun = some po → po.success = false → po.stdout = some lines →
        po.stderr = some err →
        (cfgs config w).2 = .error (.cfgExit (cfgCmd config t) err lines)) ∧
    (∀ po : ProcOut (List String), w.cfgRun = some po → po.stdout = none →
        (cfgs config w).2 = .error (.utf8Failure .cfgQuery)) ∧
    (∀ (po : ProcOut (List String)) (lines : List String) (l : String),
        w.cfgRun = some po → po.success = true → po.stdout = some lines →
        l ∈ lines → parseCfg l = none →
        ∃ l', parseCfg l' = none ∧
          (cfgs config w).2 = .error (.cfgFlagParse l')) := by
  refine ⟨?_, ?_, ?_, ?_⟩
  · intro h; simp [cfgs, ht, h]
  · intro po lines err hpo hs hout herr
    simp [cfgs, ht, hpo, hout, hs, herr]
  · intro po hpo hout
    simp [cfgs, ht, hpo, hout]
  · intro po lines l hpo hs hout hl hp
    obtain ⟨l', h1, h2⟩ := parseCfgLines_fails lines l hl hp
    exact ⟨l', h1, by simp [cfgs, ht, hpo, hout, hs, h2]⟩

/-- The configuration of the C7 scenarios. -/
def cfgC7 : Config :=
  ⟨some ["m"], some "tgt", some "host", .other, .ignore, "rustc", "cargo",
    ["out"]⟩

/-- A world whose configuration-flag query exits non-zero with decodable
streams. -/
def worldC7exit : World :=
  ⟨some "host", some ⟨false, some ["line1"], some "boom"⟩, none, none,
    fun p => some p⟩

/-- Claim C7 witness: the amended theorem evaluated on the non-zero-exit
scenario; the resulting diagnostic carries the command line and both
streams. -/
theorem cfgs_error_spec_witness :
    (cfgs cfgC7 worldC7exit).2 =
      .error (.cfgExit ⟨"rustc", ["--target", "tgt"]⟩ "boom" ["line1"]) ∧
    isCmdAndStreamsError
      (.cfgExit ⟨"rustc", ["--target", "tgt"]⟩ "boom" ["line1"]) = true :=
  ⟨(cfgs_error_spec cfgC7 worldC7exit "tgt" rfl).2.1
      ⟨false, some ["line1"], some "boom"⟩ ["line1"] "boom" rfl rfl rfl rfl,
    rfl⟩

/-- A world whose configuration-flag query cannot be started. -/
def worldC7spawn : World :=
  ⟨some "host", none, none, none, fun p => some p⟩

/-- A world whose configuration-flag query exits non-zero with a stdout that
is not valid UTF-8. -/
def worldC7utf8 : World :=
  ⟨some "host", some ⟨false, none, some "boom"⟩, none, none, fun p => some p⟩

/-- Claim C7, counterexample: a spawn failure yields the bare propagated io
error, which carries neither the command line nor any captured stream; and a
non-zero exit whose stdout is not valid UTF-8 yields the UTF-8 decode error —
in both cases the failure is not an error of the
command-line-and-both-streams (ToolInvocationError) shape the claim
requires. -/
theorem cfgs_error_spec_counterexample :
    (cfgs cfgC7 worldC7spawn).2 = .error (.spawnFailure .cfgQuery) ∧
    isCmdAndStreamsError (.spawnFailure .cfgQuery) = false ∧
    (cfgs cfgC7 worldC7utf8).2 = .error (.utf8Failure .cfgQuery) ∧
    isCmdAndStreamsError (.utf8Failure .cfgQuery) = false :=
  ⟨rfl, rfl, rfl, rfl⟩

/-! ## C8: alias normalization -/

/-- Helper: a pair emitted by the artifact-lookup step carries exactly the
hyphen-normalized form of the name it was handed. -/
theorem resolveEntry_emits (rootName : String) (stream : List BuildLine)
    (arts : AMap) (pkg : Package) (name : String)
    (pr : String × List FsPath) (arts₂ : AMap)
    (h : resolveEntry rootName stream arts pkg name = .ok (some pr, arts₂)) :
    pr.1 = replaceDash name := by
  obtain ⟨n, fs⟩ := pr
  unfold resolveEntry removeA at h
  cases hv : lookupA arts pkg.id with
  | none =>
    rw [hv] at h
    by_cases hr : name = rootName
    · simp only [if_pos hr] at h
      simp at h
    · simp only [if_neg hr] at h
      cases h
  | some files =>
    rw [hv] at h
    simp only [Except.ok.injEq, Prod.mk.injEq, Option.some.injEq] at h
    exact h.1.1.symm

/-- Helper: a pair emitted while processing one kept dependency carries the
normalized rename-or-package-name alias of that dependency. -/
theorem processKept_emits (packages : List Package) (rootName : String)
    (stream : List BuildLine) (arts : AMap) (d : Dependency)
    (pr : String × List FsPath) (arts₂ : AMap)
    (h : processKept packages rootName stream arts d = .ok (some pr, arts₂)) :
    ∃ p, findPackage packages d = some p ∧
      pr.1 = replaceDash (d.rename.getD p.name) := by
  unfold processKept at h
  cases hf : findPackage packages d with
  | none => rw [hf] at h; cases h
  | some p =>
    rw [hf] at h
    exact ⟨p, rfl, resolveEntry_emits rootName stream arts p _ pr arts₂ h⟩

/-- Helper: a pair emitted while processing one declared dependency carries
the normalized rename-or-package-name alias of that dependency. -/
theorem processDep_emits (packages : List Package) (target? : Option String)
    (cfg : List Cfg) (rootName : String) (stream : List BuildLine)
    (arts : AMap) (d : Dependency) (pr : String × List FsPath) (arts₂ : AMap)
    (h : processDep packages target? cfg rootName stream arts d =
      .ok (some pr, arts₂)) :
    ∃ p, findPackage packages d = some p ∧
      pr.1 = replaceDash (d.rename.getD p.name) := by
  unfold processDep at h
  by_cases hk : d.kind = .normal
  · rw [if_pos hk] at h
    cases htg : d.target with
    | none =>
      rw [htg] at h
      exact processKept_emits packages rootName stream arts d pr arts₂ h
    | some platform =>
      rw [htg] at h
      cases target? with
      | none => cases h
      | some t =>
        by_cases hpm : platform.matches t cfg
        · simp only [if_pos hpm] at h
          exact processKept_emits packages rootName stream arts d pr arts₂ h
        · simp only [if_neg hpm] at h
          simp at h
  · rw [if_neg hk] at h
    simp at h

/-- Helper: every pair in the output of the dependency-processing loop comes
from some declared dependency, under its normalized rename-or-package-name
alias. -/
theorem processDeps_alias (packages : List Package) (target? : Option String)
    (cfg : List Cfg) (rootName : String) (stream : List BuildLine)
    (deps : List Dependency) (arts : AMap)
    (ps : List (String × List FsPath)) (arts' : AMap)
    (h : processDeps packages target? cfg rootName stream deps arts =
      .ok (ps, arts')) :
    ∀ pr ∈ ps, ∃ d ∈ deps, ∃ p, findPackage packages d = some p ∧
      pr.1 = replaceDash (d.rename.getD p.name) := by
  induction deps generalizing arts ps arts' with
  | nil =>
    simp only [processDeps, Except.ok.injEq, Prod.mk.injEq] at h
    obtain ⟨h1, h2⟩ := h
    subst h1
    intro pr hpr
    cases hpr
  | cons d rest ih =>
    simp only [processDeps] at h
    cases hpd : processDep packages target? cfg rootName stream arts d with
    | error e => rw [hpd] at h; cases h
    | ok pa =>
      obtain ⟨pro, arts₂⟩ := pa
      rw [hpd] at h
      simp only [] at h
      cases hrest : processDeps packages target? cfg rootName stream rest arts₂ with
      | error e => rw [hrest] at h; cases h
      | ok pb =>
        obtain ⟨ps₁, arts₃⟩ := pb
        rw [hrest] at h
        simp only [Except.ok.injEq, Prod.mk.injEq] at h
        obtain ⟨h1, h2⟩ := h
        subst h1
        intro pr hpr
        cases pro with
        | none =>
          obtain ⟨d', hd', hrec⟩ := ih arts₂ ps₁ arts₃ hrest pr hpr
          exact ⟨d', List.mem_cons_of_mem d hd', hrec⟩
        | some prh =>
          rcases List.mem_cons.mp hpr with hh | hh
          · subst hh
            obtain ⟨p, hp, heq⟩ :=
              processDep_emits packages target? cfg rootName stream arts d
                pr arts₂ hpd
            exact ⟨d, List.mem_cons_self d rest, p, hp, heq⟩
          · obtain ⟨d', hd', hrec⟩ := ih arts₂ ps₁ arts₃ hrest pr hh
            exact ⟨d', List.mem_cons_of_mem d hd', hrec⟩

/-- Claim C8: in a successful graph resolution, every emitted pair's alias is
the dependency's declared rename if present, else the resolved package's own
name — and for the appended root entry the root's own name — with every
hyphen replaced by an underscore; the same normalization applies in all
cases. -/
theorem emitted_alias_normalized (canon : FsPath → Option FsPath)
    (manifest : FsPath) (target? : Option String) (cfg : List Cfg)
    (m : Metadata) (stream : List BuildLine) (arts : AMap) (root : Package)
    (ps : List (String × List FsPath))
    (hroot : findRoot canon manifest m.packages = .ok root)
    (h : resolveGraph canon manifest target? cfg m stream arts = .ok ps) :
    ∀ pr ∈ ps, ∃ nm, pr.1 = replaceDash nm ∧
      (nm = root.name ∨
        ∃ d ∈ root.dependencies, ∃ p, findPackage m.packages d = some p ∧
          nm = d.rename.getD p.name) := by
  unfold resolveGraph at h
  rw [hroot] at h
  simp only [] at h
  cases hpd : processDeps m.packages target? cfg root.name stream
      root.dependencies arts with
  | error e => rw [hpd] at h; cases h
  | ok pa =>
    obtain ⟨ps₁, arts₂⟩ := pa
    rw [hpd] at h
    simp only [] at h
    cases hre : resolveEntry root.name stream arts₂ root root.name with
    | error e => rw [hre] at h; cases h
    | ok pb =>
      obtain ⟨pro, arts₃⟩ := pb
      rw [hre] at h
      simp only [Except.ok.injEq] at h
      subst h
      intro pr hpr
      rcases List.mem_append.mp hpr with hh | hh
      · obtain ⟨d, hd, p, hp, heq⟩ :=
          processDeps_alias m.packages target? cfg root.name stream
            root.dependencies arts ps₁ arts₂ hpd pr hh
        exact ⟨d.rename.getD p.name, heq, Or.inr ⟨d, hd, p, hp, rfl⟩⟩
      · cases pro with
        | none => cases hh
        | some prh =>
          have hpr2 : pr = prh := by simpa using hh
          subst hpr2
          exact ⟨root.name,
            resolveEntry_emits root.name stream arts₂ root root.name pr
              arts₃ hre,
            Or.inl rfl⟩

/-- The hyphenated dependency of the concrete C8 scenario. -/
def depFoo : Dependency := ⟨"foo-bar", none, .any, .normal, none⟩

/-- The package resolved by `depFoo`. -/
def pkgFoo : Package := ⟨"F", "foo-bar", 1, ["f"], []⟩

/-- The hyphenated root package of the concrete C8 scenario. -/
def pkgRootH : Package := ⟨"R", "my-root", 1, ["m"], [depFoo]⟩

/-- The artifact map of the concrete C8 scenario. -/
def artsH : AMap := [("F", [["d", "fb.rmeta"]]), ("R", [["d", "r.rmeta"]])]

/-- Claim C8 witness: on the concrete scenario both the raw-package-name
alias `foo-bar` and the root name `my-root` are emitted in normalized form,
and the theorem instantiates at the emitted `foo_bar` pair. -/
theorem emitted_alias_normalized_witness :
    resolveGraph (fun p => some p) ["m"] (some "tgt") [] ⟨[pkgRootH, pkgFoo]⟩
        [] artsH =
      .ok [("foo_bar", [["d", "fb.rmeta"]]), ("my_root", [["d", "r.rmeta"]])] ∧
    (∃ nm, ("foo_bar", [["d", "fb.rmeta"]]).1 = replaceDash nm ∧
      (nm = pkgRootH.name ∨
        ∃ d ∈ pkgRootH.dependencies, ∃ p,
          findPackage (Metadata.packages ⟨[pkgRootH, pkgFoo]⟩) d = some p ∧
          nm = d.rename.getD p.name)) :=
  ⟨rfl,
    emitted_alias_normalized (fun p => some p) ["m"] (some "tgt") []
      ⟨[pkgRootH, pkgFoo]⟩ [] artsH pkgRootH
      [("foo_bar", [["d", "fb.rmeta"]]), ("my_root", [["d", "r.rmeta"]])]
      rfl rfl ("foo_bar", [["d", "fb.rmeta"]]) (by simp)⟩

/-! ## C10: unset target aborts by panic -/

/-- Claim C10: with a configured manifest path and an unset target, a pass
that otherwise proceeds normally (host already memoized, build and metadata
subprocesses succeed with decodable output) reaches the configuration-flag
query, whose unconditional dereference of the optional target aborts the pass
with the target-unwrap panic — not with any of the defined error kinds. -/
theorem unset_target_panics (config : Config) (w : World) (manifest : FsPath)
    (hst : String) (po : ProcOut (List BuildLine)) (mo : ProcOut (List MetaLine))
    (stream : List BuildLine) (metaLines : List MetaLine) (ips : List FsPath)
    (arts : AMap)
    (hm : config.dependencies_crate_manifest_path = some manifest)
    (ht : config.target = none) (hh : config.host = some hst)
    (hb : w.buildRun = some po) (hbs : po.success = true)
    (hbo : po.stdout = some stream)
    (hc : collectArtifacts stream [] [] = .ok (ips, arts))
    (hmo : w.metadataRun = some mo) (hms : mo.success = true)
    (hmos : mo.stdout = some metaLines) :
    (build_dependencies config w).2 = .error .panicUnwrapTarget := by
  have hfill : fillHostTarget config w = ([], .ok config) := by
    unfold fillHostTarget; rw [hh]
  have hcfg : cfgs config w = ([], .error .panicUnwrapTarget) := by
    unfold cfgs; rw [ht]
  unfold build_dependencies
  rw [hm, hfill]
  simp only []
  rw [hb]
  simp only []
  rw [hbs, if_pos rfl, hbo]
  simp only []
  rw [hc]
  simp only []
  rw [hmo]
  simp only []
  rw [hms, if_pos rfl, hmos]
  simp only []
  rw [hcfg]

/-- The configuration of the concrete C10 scenario: a manifest is configured
but no target is set. -/
def cfgNoTarget : Config :=
  ⟨some ["m"], none, some "host", .other, .ignore, "rustc", "cargo", ["out"]⟩

/-- The world of the concrete C10 scenario: build and metadata succeed, and
the configuration query would even have been answerable — but it is never
spawned because the command construction panics first. -/
def worldC10 : World :=
  ⟨some "host",
    some ⟨true, some [], some ""⟩,
    some ⟨true, some [], some ""⟩,
    some ⟨true, some [.graph ⟨[]⟩], some ""⟩,
    fun p => some p⟩

/-- Claim C10 witness: the theorem evaluated on the concrete scenario; the
trace confirms the configuration-flag query was never attempted. -/
theorem unset_target_panics_witness :
    (build_dependencies cfgNoTarget worldC10).2 = .error .panicUnwrapTarget ∧
    (build_dependencies cfgNoTarget worldC10).1 =
      [.buildDriver, .metadataQuery] :=
  ⟨unset_target_panics cfgNoTarget worldC10 ["m"] "host"
      ⟨true, some [], some ""⟩ ⟨true, some [.graph ⟨[]⟩], some ""⟩
      [] [.graph ⟨[]⟩] [] [] rfl rfl rfl rfl rfl rfl rfl rfl rfl rfl,
    rfl⟩

end UiTest
